import Mathlib

/-!
Shallow embedding of `src/tcp_latency_measurement.py`
(TCP/IP Latency Measurement Tool).

Python floats are modelled as rationals (`ℚ`); `float('inf')` — the initial
value of `min_latency` — is modelled as `⊤` in `WithTop ℚ`.  The one
genuinely irrational quantity, `statistics.stdev` (a square root), is
modelled in `ℝ` via `Real.sqrt`; every other definition is computable.
-/

namespace TCPLatency

/-- The server's mutable statistics dictionary `self.stats`
(`TCPServer.__init__`, lines 30–36): keys `total_requests`,
`total_latency`, `min_latency` (initially `float('inf')`, hence
`WithTop ℚ`), `max_latency` (initially `0`) and `latencies` (a list). -/
structure Stats where
  total_requests : ℕ
  total_latency : ℚ
  min_latency : WithTop ℚ
  max_latency : ℚ
  latencies : List ℚ
deriving DecidableEq

/-- The initial value of `self.stats` set in `TCPServer.__init__`. -/
def initStats : Stats :=
  { total_requests := 0
    total_latency := 0
    min_latency := ⊤
    max_latency := 0
    latencies := [] }

/-- `TCPServer.update_stats` (lines 124–133): increment `total_requests`,
add the latency into `total_latency`, append it to `latencies`, and lower
`min_latency` / raise `max_latency` when the strict comparisons hold. -/
def update_stats (st : Stats) (latency : ℚ) : Stats :=
  { total_requests := st.total_requests + 1
    total_latency := st.total_latency + latency
    latencies := st.latencies ++ [latency]
    min_latency :=
      if (latency : WithTop ℚ) < st.min_latency then (latency : WithTop ℚ)
      else st.min_latency
    max_latency :=
      if st.max_latency < latency then latency else st.max_latency }

/-- Recording a whole sequence of latencies into a fresh aggregator:
`update_stats` called once per sample, in order. -/
def recordAll (L : List ℚ) : Stats :=
  L.foldl update_stats initStats

/-- `statistics.mean`: sum divided by length.  (Python raises on an empty
list; the server only calls it on a non-empty one.) -/
def listMean (xs : List ℚ) : ℚ :=
  xs.sum / xs.length

/-- Python's built-in `min` on a non-empty list.  (Raises on empty input;
the client only calls it on a non-empty list, the `[]` case is a dummy.) -/
def listMin : List ℚ → ℚ
  | [] => 0
  | x :: xs => xs.foldl min x

/-- Python's built-in `max` on a non-empty list (see `listMin`). -/
def listMax : List ℚ → ℚ
  | [] => 0
  | x :: xs => xs.foldl max x

/-- `statistics.median`: sort the data; odd length takes the middle
element, even length averages the two middle elements.  (Raises on empty
input; only called on non-empty lists, the default is a dummy.) -/
def listMedian (xs : List ℚ) : ℚ :=
  let ys := xs.mergeSort (fun a b => a ≤ b)
  let n := xs.length
  if n % 2 = 1 then ys.getD (n / 2) 0
  else (ys.getD (n / 2 - 1) 0 + ys.getD (n / 2) 0) / 2

/-- The sample variance with the `n − 1` (Bessel) denominator, the
quantity whose square root `statistics.stdev` returns. -/
def sampleVariance (xs : List ℚ) : ℚ :=
  (xs.map (fun x => (x - listMean xs) ^ 2)).sum / ((xs.length : ℚ) - 1)

/-- `statistics.stdev`: square root of the sample variance.  Real-valued,
hence noncomputable; every claim evaluates it only on branches where the
code bypasses it (`len <= 1`). -/
noncomputable def stdev (xs : List ℚ) : ℝ :=
  Real.sqrt (sampleVariance xs)

/-- The dictionary returned by `TCPServer.get_stats` (lines 135–146): a
copy of `self.stats` extended with the three derived fields. -/
structure StatsReport where
  total_requests : ℕ
  total_latency : ℚ
  min_latency : WithTop ℚ
  max_latency : ℚ
  latencies : List ℚ
  avg_latency : ℚ
  median_latency : ℚ
  std_latency : ℝ

/-- `TCPServer.get_stats`: copy the stats dict; if `latencies` is
non-empty add mean/median/stdev (stdev only when more than one sample,
else `0`); otherwise report the three derived fields as `0`.  The Python
code tests truthiness (`if stats['latencies']:`), i.e. non-emptiness. -/
noncomputable def get_stats (st : Stats) : StatsReport :=
  if st.latencies = [] then
    { total_requests := st.total_requests
      total_latency := st.total_latency
      min_latency := st.min_latency
      max_latency := st.max_latency
      latencies := st.latencies
      avg_latency := 0
      median_latency := 0
      std_latency := 0 }
  else
    { total_requests := st.total_requests
      total_latency := st.total_latency
      min_latency := st.min_latency
      max_latency := st.max_latency
      latencies := st.latencies
      avg_latency := listMean st.latencies
      median_latency := listMedian st.latencies
      std_latency :=
        if 1 < st.latencies.length then stdev st.latencies else 0 }

/-- The dictionary built by `TCPClient.get_stats` (lines 205–217) in the
non-empty case. -/
structure ClientStats where
  count : ℕ
  min : ℚ
  max : ℚ
  avg : ℚ
  median : ℚ
  std : ℝ

/-- `TCPClient.get_stats`: returns `None` when no latencies have been
recorded (`if not self.latencies: return None`), otherwise the summary
dictionary (stdev only when more than one sample, else `0`). -/
noncomputable def client_get_stats (latencies : List ℚ) : Option ClientStats :=
  if latencies = [] then none
  else
    some
      { count := latencies.length
        min := listMin latencies
        max := listMax latencies
        avg := listMean latencies
        median := listMedian latencies
        std := if 1 < latencies.length then stdev latencies else 0 }

/-- A decoded request dictionary.  `request.get('type', 'ping')` and
`request.get('timestamp', time.time())` (lines 85–86) make both fields
optional with defaults, so we keep them as `Option`s. -/
structure Request where
  reqType? : Option String
  timestamp? : Option ℚ

/-- The three outcomes of decoding a non-empty `recv` payload
(lines 83–116).  `data.decode('utf-8')` on bytes that are not valid UTF-8
raises `UnicodeDecodeError`, which is NOT a `json.JSONDecodeError` and so
escapes the inner `except` to the outer `except Exception`; valid UTF-8
that `json.loads` rejects raises `json.JSONDecodeError`, caught by the
inner handler. -/
inductive Payload where
  | invalidUtf8
  | invalidJson
  | req (r : Request)

/-- What one `client_socket.recv(1024)` call yields: an empty read (peer
closed), an I/O exception, or a non-empty payload. -/
inductive RecvEvent where
  | closed
  | ioError
  | data (p : Payload)

/-- A response message written back by the handler: the `pong` dictionary
(timestamp = the server's `current_time`, the measured latency, and the
`server_time` ISO string), or the `stats_response` wrapping
`self.get_stats()`. -/
inductive Response where
  | pong (timestamp latency : ℚ) (serverTime : String)
  | statsResponse (stats : StatsReport)

/-- Why `handle_client`'s `while` loop ended: the loop guard
`self.running` read `False` (`stopped`), `recv` returned no data
(`peerClosed`), or an exception reached the outer handler (`errored`). -/
inductive ExitReason where
  | stopped
  | peerClosed
  | errored
deriving DecidableEq

/-- The environment of one iteration of `handle_client`'s loop: the value
of the shared `self.running` flag read at the loop top, the `recv`
outcome, and the three nondeterministic reads the iteration makes —
`time.time()` in the `request.get('timestamp', ...)` default (`tGet`),
`current_time = time.time()` in the ping branch (`tNow`), and
`datetime.now().isoformat()` (`wallClock`). -/
structure IterInput where
  running : Bool
  event : RecvEvent
  tGet : ℚ
  tNow : ℚ
  wallClock : String

/-- Prepend a response sent in this iteration to the result of running the
rest of the loop. -/
def consResp (r : Response) (out : Stats × List Response × Option ExitReason) :
    Stats × List Response × Option ExitReason :=
  (out.1, r :: out.2.1, out.2.2)

/-- `TCPServer.handle_client` (lines 73–122) over a finite trace of loop
iterations: returns the final shared stats, the responses written in
order, and how the loop exited (`none` when the trace ran out with the
loop still live).  Branches, in source order: loop guard `self.running`;
empty read breaks; invalid UTF-8 raises past the inner `except` to the
outer `except Exception`; `json.JSONDecodeError` is logged and the loop
continues; a `ping` request records `(current_time - timestamp) * 1000`
and answers with a pong; a `stats` request answers with `get_stats`; any
other type falls through silently. -/
noncomputable def handleClient : List IterInput → Stats → Stats × List Response × Option ExitReason
  | [], st => (st, [], none)
  | i :: rest, st =>
    if i.running then
      match i.event with
      | .closed => (st, [], some .peerClosed)
      | .ioError => (st, [], some .errored)
      | .data .invalidUtf8 => (st, [], some .errored)
      | .data .invalidJson => handleClient rest st
      | .data (.req r) =>
        let rt := r.reqType?.getD "ping"
        let ts := r.timestamp?.getD i.tGet
        if rt = "ping" then
          let latency := (i.tNow - ts) * 1000
          consResp (.pong i.tNow latency i.wallClock)
            (handleClient rest (update_stats st latency))
        else if rt = "stats" then
          consResp (.statsResponse (get_stats st)) (handleClient rest st)
        else handleClient rest st
    else (st, [], some .stopped)

/-- The network outcome of one `TCPClient.send_ping` call (lines
175–203): the send raised, the recv raised, the response was empty
(`if response:` is false), the response bytes failed to decode
(`json.loads` raised, caught by the same `except`), or a decoded response
dictionary whose `latency` key may be absent. -/
inductive SendPingNet where
  | sendError
  | recvError
  | emptyResponse
  | badResponse
  | response (latency? : Option ℚ)

/-- `TCPClient.send_ping`: given whether a socket exists, the network
outcome, the two local clock reads `start_time`/`end_time`, and the
current `self.latencies`, returns the value returned to the caller and
the new `self.latencies`.  On success the returned latency is the
response's `latency` field, falling back to
`(end_time - start_time) * 1000`, and exactly that value is appended; on
every failure path the function returns `None` and appends nothing. -/
def send_ping (connected : Bool) (net : SendPingNet)
    (startTime endTime : ℚ) (latencies : List ℚ) : Option ℚ × List ℚ :=
  if connected then
    match net with
    | .sendError => (none, latencies)
    | .recvError => (none, latencies)
    | .emptyResponse => (none, latencies)
    | .badResponse => (none, latencies)
    | .response latency? =>
      let latency := latency?.getD ((endTime - startTime) * 1000)
      (some latency, latencies ++ [latency])
  else (none, latencies)

/-- Whether `self.server_socket.bind(...)` in `TCPServer.start`
(line 43) succeeds or raises (e.g. the port is already in use). -/
inductive BindOutcome where
  | ok
  | portInUse

/-- One round of the accept loop (lines 51–66): a connection was
accepted, `accept` raised a `socket.error` (logged when still running,
loop continues), or the loop guard `self.running` read `False`. -/
inductive AcceptEvent where
  | conn
  | sockError
  | stopSignal

/-- How many connections the accept loop accepts on a trace of accept
rounds: `sockError` is logged and the loop continues; `stopSignal` ends
the `while self.running` loop, so later events are unreachable. -/
def countConns : List AcceptEvent → ℕ
  | [] => 0
  | .conn :: rest => countConns rest + 1
  | .sockError :: rest => countConns rest
  | .stopSignal :: _ => 0

/-- The observable outcome of `TCPServer.start`: whether an exception
propagated to the caller, whether the accept loop was entered, and how
many connections were accepted. -/
structure StartResult where
  raised : Bool
  loopEntered : Bool
  accepted : ℕ
deriving DecidableEq

/-- `TCPServer.start` (lines 38–71).  When `bind` raises, control jumps
from line 43 straight to `except Exception as e: print(...)` (lines
68–69) and then `finally: self.stop()`; the exception is swallowed, the
function returns normally, and the `while self.running` loop is never
entered (`self.running` is still `False`).  When `bind` succeeds the loop
runs over the accept rounds. -/
def serverStart : BindOutcome → List AcceptEvent → StartResult
  | .portInUse, _ =>
    { raised := false, loopEntered := false, accepted := 0 }
  | .ok, evs =>
    { raised := false, loopEntered := true, accepted := countConns evs }

/-- The atomic (single-bytecode-level) memory operations that
`TCPServer.update_stats` performs on the shared `self.stats` dictionary.
Each `+=` is a read followed by a separate write; each `if x < bound:`
is a read of the bound followed by a conditional write; `list.append` is
a single atomic operation. -/
inductive Op where
  | rdCount
  | wrCount
  | rdTotal
  | wrTotal
  | appendS
  | rdMin
  | wrMin
  | rdMax
  | wrMax
deriving DecidableEq

/-- The operation sequence of one `update_stats(latency)` call, in source
order (lines 126–133). -/
def recordOps : List Op :=
  [.rdCount, .wrCount, .rdTotal, .wrTotal, .appendS, .rdMin, .wrMin, .rdMax, .wrMax]

/-- One thread executing `update_stats`: its latency argument, its
remaining operations, and the values its reads have loaded so far. -/
structure ThreadState where
  v : ℚ
  prog : List Op
  lCount : ℕ
  lTotal : ℚ
  lMin : WithTop ℚ
  lMax : ℚ
deriving DecidableEq

/-- A thread about to start `update_stats v`. -/
def mkThread (v : ℚ) : ThreadState :=
  { v := v, prog := recordOps, lCount := 0, lTotal := 0, lMin := 0, lMax := 0 }

/-- A thread with nothing left to run. -/
def idleThread : ThreadState :=
  { v := 0, prog := [], lCount := 0, lTotal := 0, lMin := 0, lMax := 0 }

/-- Execute the next atomic operation of a thread against the shared
stats (a no-op when the thread is done). -/
def stepThread (sh : Stats) (t : ThreadState) : Stats × ThreadState :=
  match t.prog with
  | [] => (sh, t)
  | op :: rest =>
    let t' := { t with prog := rest }
    match op with
    | .rdCount => (sh, { t' with lCount := sh.total_requests })
    | .wrCount => ({ sh with total_requests := t.lCount + 1 }, t')
    | .rdTotal => (sh, { t' with lTotal := sh.total_latency })
    | .wrTotal => ({ sh with total_latency := t.lTotal + t.v }, t')
    | .appendS => ({ sh with latencies := sh.latencies ++ [t.v] }, t')
    | .rdMin => (sh, { t' with lMin := sh.min_latency })
    | .wrMin =>
      (if (t.v : WithTop ℚ) < t.lMin then { sh with min_latency := (t.v : WithTop ℚ) }
       else sh, t')
    | .rdMax => (sh, { t' with lMax := sh.max_latency })
    | .wrMax =>
      (if t.lMax < t.v then { sh with max_latency := t.v } else sh, t')

/-- Run two threads under a schedule: `true` steps thread 0, `false`
steps thread 1.  `update_stats` takes no lock, so every schedule is a
possible CPython interleaving (the GIL only makes single bytecodes
atomic, and `self.stats['total_requests'] += 1` is a read, an add and a
write). -/
def runSched : List Bool → Stats → ThreadState → ThreadState → Stats
  | [], sh, _, _ => sh
  | b :: rest, sh, t0, t1 =>
    if b then
      let p := stepThread sh t0
      runSched rest p.1 p.2 t1
    else
      let p := stepThread sh t1
      runSched rest p.1 t0 p.2

/-- A schedule on which both threads read `total_requests = 0` before
either writes it back: thread 0 runs its first op, thread 1 runs its
first op, then each runs to completion. -/
def lostUpdateSched : List Bool :=
  [true, false] ++ List.replicate 8 true ++ List.replicate 8 false

/-- The serialized schedule: thread 0 completes before thread 1 starts. -/
def seqSched : List Bool :=
  List.replicate 9 true ++ List.replicate 9 false

/-! ## Helper lemmas about `update_stats` and its folds -/

theorem upd_total (st : Stats) (v : ℚ) :
    (update_stats st v).total_requests = st.total_requests + 1 := rfl

theorem upd_lat (st : Stats) (v : ℚ) :
    (update_stats st v).latencies = st.latencies ++ [v] := rfl

theorem upd_min_le (st : Stats) (v : ℚ) :
    (update_stats st v).min_latency ≤ st.min_latency := by
  simp only [update_stats]
  split
  · exact le_of_lt (by assumption)
  · exact le_refl _

theorem upd_min_le_v (st : Stats) (v : ℚ) :
    (update_stats st v).min_latency ≤ (v : WithTop ℚ) := by
  simp only [update_stats]
  split
  · exact le_refl _
  · exact not_lt.mp (by assumption)

theorem upd_max_ge (st : Stats) (v : ℚ) :
    st.max_latency ≤ (update_stats st v).max_latency := by
  simp only [update_stats]
  split
  · exact le_of_lt (by assumption)
  · exact le_refl _

theorem upd_max_ge_v (st : Stats) (v : ℚ) :
    v ≤ (update_stats st v).max_latency := by
  simp only [update_stats]
  split
  · exact le_refl _
  · exact not_lt.mp (by assumption)

theorem fold_total (L : List ℚ) :
    ∀ st : Stats, (L.foldl update_stats st).total_requests = st.total_requests + L.length := by
  induction L with
  | nil => intro st; simp
  | cons v L ih =>
    intro st
    simp only [List.foldl_cons, List.length_cons, ih, upd_total]
    omega

theorem fold_lat (L : List ℚ) :
    ∀ st : Stats, (L.foldl update_stats st).latencies = st.latencies ++ L := by
  induction L with
  | nil => intro st; simp
  | cons v L ih =>
    intro st
    simp only [List.foldl_cons, ih, upd_lat, List.append_assoc, List.singleton_append]

theorem fold_min_le (L : List ℚ) :
    ∀ st : Stats, (L.foldl update_stats st).min_latency ≤ st.min_latency := by
  induction L with
  | nil => intro st; exact le_refl _
  | cons v L ih => intro st; exact le_trans (ih _) (upd_min_le st v)

theorem fold_max_ge (L : List ℚ) :
    ∀ st : Stats, st.max_latency ≤ (L.foldl update_stats st).max_latency := by
  induction L with
  | nil => intro st; exact le_refl _
  | cons v L ih => intro st; exact le_trans (upd_max_ge st v) (ih _)

theorem fold_bounds (L : List ℚ) :
    ∀ st : Stats, ∀ s, s ∈ L → (L.foldl update_stats st).min_latency ≤ (s : WithTop ℚ) ∧
      s ≤ (L.foldl update_stats st).max_latency := by
  induction L with
  | nil => intro st s hs; cases hs
  | cons v L ih =>
    intro st s hs
    rcases List.mem_cons.mp hs with h | h
    · subst h
      refine ⟨le_trans (fold_min_le L (update_stats st s)) (upd_min_le_v st s), ?_⟩
      exact le_trans (upd_max_ge_v st s) (fold_max_ge L (update_stats st s))
    · exact ih (update_stats st v) s h

/-! ## Helper lemmas about `handleClient` -/

theorem stop_exit (i : IterInput) (rest : List IterInput) (st : Stats)
    (h : i.running = false) :
    handleClient (i :: rest) st = (st, [], some .stopped) := by
  cases i
  simp_all [handleClient]

theorem no_stop_when_running (trace : List IterInput) :
    ∀ st : Stats, (∀ i ∈ trace, i.running = true) →
      (handleClient trace st).2.2 ≠ some ExitReason.stopped := by
  induction trace with
  | nil => intro st _ h; simp [handleClient] at h
  | cons i rest ih =>
    intro st hall
    have hi : i.running = true := hall i (List.mem_cons_self i rest)
    have hrest : ∀ j ∈ rest, j.running = true := fun j hj => hall j (List.mem_cons_of_mem i hj)
    cases i with
    | mk running event tGet tNow wallClock =>
      simp only at hi
      subst hi
      cases event with
      | closed => simp [handleClient]
      | ioError => simp [handleClient]
      | data p =>
        cases p with
        | invalidUtf8 => simp [handleClient]
        | invalidJson => simpa [handleClient] using ih st hrest
        | req r =>
          simp only [handleClient, if_pos]
          split
          · simpa [consResp] using ih _ hrest
          · split
            · simpa [consResp] using ih _ hrest
            · exact ih _ hrest

theorem drop_bad_json (i : IterInput) (rest : List IterInput) (st : Stats)
    (h1 : i.running = true) (h2 : i.event = .data .invalidJson) :
    handleClient (i :: rest) st = handleClient rest st := by
  cases i
  simp_all [handleClient]

theorem utf8_terminates_handler (i : IterInput) (rest : List IterInput) (st : Stats)
    (h1 : i.running = true) (h2 : i.event = .data .invalidUtf8) :
    handleClient (i :: rest) st = (st, [], some .errored) := by
  cases i
  simp_all [handleClient]

/-! ## Fidelity of the interleaving model

Running the nine atomic operations of one `update_stats` call alone, with
the other thread idle, is exactly `update_stats`. -/

theorem runSched_one_thread_eq_update_stats (v : ℚ) (sh : Stats) :
    runSched (List.replicate 9 true) sh (mkThread v) idleThread = update_stats sh v := by
  simp only [runSched, stepThread, mkThread, idleThread, recordOps, if_true]
  split_ifs <;> simp_all [update_stats, apply_ite Stats.max_latency, apply_ite Stats.min_latency] <;>
    first
    | exact ⟨by first | rfl | rw [if_neg (not_lt.mpr (by assumption))],
        by first | rfl | rw [if_neg (not_lt.mpr (by assumption))]⟩
    | rw [if_neg (not_lt.mpr (by assumption))]

theorem runSched_sequential_eq_two_updates :
    runSched seqSched initStats (mkThread 5) (mkThread 7)
      = update_stats (update_stats initStats 5) 7 := by
  rfl

/-! ## The claims -/

/-- Claim C1: the claim asserts that `update_stats` (record) and
`get_stats` (snapshot) run under a single critical section, so that
after any interleaving of concurrent record calls of a latency sequence
L, `count == len(L)`.  The code takes no lock at all, and this theorem
exhibits the resulting lost update: two concurrent `record` calls (of
latencies 5 and 7), interleaved so that both threads read
`total_requests = 0` before either writes it back, leave
`total_requests = 1` although two samples were appended. -/
theorem C1_unsynchronized_record_loses_update :
    (runSched lostUpdateSched initStats (mkThread 5) (mkThread 7)).total_requests = 1 ∧
    (runSched lostUpdateSched initStats (mkThread 5) (mkThread 7)).latencies.length = 2 := by
  decide

/-- Claim C2, counterexample: the claim asserts `start` raises/propagates
a bind failure to its caller; in fact `start` wraps everything in
`except Exception` and `finally`, so after a failed bind it returns
normally — no exception reaches the caller. -/
theorem C2_counterexample :
    (serverStart .portInUse []).raised = false := rfl

/-- Claim C2, amended: when the bind fails, `start` logs the error,
calls `stop()` and returns normally — no exception propagates to the
caller — and the accept loop is never entered, so no connection is ever
accepted after a bind failure. -/
theorem C2_bind_failure_caught_no_accepts (evs : List AcceptEvent) :
    serverStart .portInUse evs
      = { raised := false, loopEntered := false, accepted := 0 } := rfl

/-- Claim C3, counterexample: the claim asserts the client's private
aggregator also reports count=0 and zero statistics when empty; in fact
`TCPClient.get_stats` returns `None` when no latency has been
recorded. -/
theorem C3_counterexample :
    client_get_stats [] = none := rfl

/-- Claim C3, amended: the server's `get_stats` on an empty aggregator
returns `total_requests = 0` and mean/median/stdev all `0` (not an
error); the client's `get_stats` returns `None` when empty; and with
exactly one recorded sample the stdev is `0` on both sides. -/
theorem C3_empty_and_single_sample :
    (get_stats initStats).total_requests = 0 ∧
    (get_stats initStats).avg_latency = 0 ∧
    (get_stats initStats).median_latency = 0 ∧
    (get_stats initStats).std_latency = 0 ∧
    client_get_stats [] = none ∧
    (∀ x : ℚ, (get_stats (update_stats initStats x)).std_latency = 0) ∧
    (∀ x : ℚ, ∃ r, client_get_stats [x] = some r ∧ r.std = 0) := by
  refine ⟨rfl, rfl, rfl, rfl, rfl, ?_, ?_⟩
  · intro x; simp [get_stats, update_stats, initStats]
  · intro x; exact ⟨_, rfl, rfl⟩

/-- Claim C4, counterexample: the claim asserts the handler's loop-exit
condition is independent of the server's `running` flag; in fact the
loop guard is `while self.running`, so with the flag already cleared the
handler exits immediately (`stopped`) even though data is pending and
the peer neither disconnected nor errored. -/
theorem C4_counterexample :
    handleClient [⟨false, .data (.req ⟨some "ping", some 0⟩), 0, 1, ""⟩] initStats
      = (initStats, [], some .stopped) := rfl

/-- Claim C4, amended: `handle_client` is not forcibly cancelled by
`stop()`, but its loop re-reads `self.running` at the top of every
iteration: once the flag is false the handler exits at the next
iteration boundary without reading or processing further; while the flag
stays true the loop never exits with reason `stopped` — only peer
disconnect or an error ends it. -/
theorem C4_handler_checks_running_flag :
    (∀ (i : IterInput) (rest : List IterInput) (st : Stats), i.running = false →
      handleClient (i :: rest) st = (st, [], some .stopped)) ∧
    (∀ (trace : List IterInput) (st : Stats), (∀ i ∈ trace, i.running = true) →
      (handleClient trace st).2.2 ≠ some ExitReason.stopped) :=
  ⟨fun i rest st h => stop_exit i rest st h,
   fun trace st h => no_stop_when_running trace st h⟩

/-- Claim C4, witness: both parts of the amended claim at concrete
inputs — a cleared flag with a pending ping exits `stopped` at once, and
a live handler that sees the peer close never reports `stopped`. -/
theorem C4_witness :
    handleClient [⟨false, .data (.req ⟨some "ping", some 3⟩), 0, 1, "t"⟩] initStats
      = (initStats, [], some .stopped) ∧
    (handleClient [⟨true, .closed, 0, 0, "t"⟩] initStats).2.2 ≠ some ExitReason.stopped :=
  ⟨C4_handler_checks_running_flag.1 ⟨false, .data (.req ⟨some "ping", some 3⟩), 0, 1, "t"⟩
      [] initStats rfl,
   C4_handler_checks_running_flag.2 [⟨true, .closed, 0, 0, "t"⟩] initStats
      (by intro i hi; simp at hi; subst hi; rfl)⟩

/-- Claim C5: a decoded ping with sent timestamp `t`, handled at server
time `r`, records exactly `(r - t) * 1000` into the shared stats (the
sample list grows by exactly that value) and replies with a pong
carrying that same value.  `t` and `r` are arbitrary rationals, so the
clock-skew case `r < t` — a negative latency — is covered unchanged: no
validation or clamping happens anywhere. -/
theorem C5_ping_records_and_echoes_latency (t r tg : ℚ) (w : String) (st : Stats) :
    handleClient [⟨true, .data (.req ⟨some "ping", some t⟩), tg, r, w⟩] st
      = (update_stats st ((r - t) * 1000), [.pong r ((r - t) * 1000) w], none) ∧
    (update_stats st ((r - t) * 1000)).latencies = st.latencies ++ [(r - t) * 1000] :=
  ⟨rfl, rfl⟩

/-- Claim C6, counterexample: the claim asserts every non-empty payload
that fails to decode is dropped with a warning and the loop continues to
the next valid ping.  A payload that is not valid UTF-8 raises
`UnicodeDecodeError`, which the inner `except json.JSONDecodeError`
does not catch: the handler terminates via the outer `except Exception`
and closes the connection, so the following valid ping gets no pong. -/
theorem C6_counterexample :
    handleClient [⟨true, .data .invalidUtf8, 0, 0, ""⟩,
        ⟨true, .data (.req ⟨some "ping", some 0⟩), 0, 0, ""⟩] initStats
      = (initStats, [], some .errored) := rfl

/-- Claim C6, amended: a payload that is valid UTF-8 but fails JSON
parsing is logged and discarded and the handler carries on with the rest
of the trace unchanged (so the next valid ping is answered normally),
whereas a payload that is not valid UTF-8 raises past the
`json.JSONDecodeError` handler and terminates the handler, closing the
connection. -/
theorem C6_bad_json_dropped_bad_utf8_fatal :
    (∀ (i : IterInput) (rest : List IterInput) (st : Stats),
      i.running = true → i.event = .data .invalidJson →
        handleClient (i :: rest) st = handleClient rest st) ∧
    (∀ (i : IterInput) (rest : List IterInput) (st : Stats),
      i.running = true → i.event = .data .invalidUtf8 →
        handleClient (i :: rest) st = (st, [], some .errored)) :=
  ⟨fun i rest st h1 h2 => drop_bad_json i rest st h1 h2,
   fun i rest st h1 h2 => utf8_terminates_handler i rest st h1 h2⟩

/-- Claim C6, witness: a malformed-JSON exchange before a valid ping is
dropped — the handler behaves exactly as if the trace started at the
ping — and an invalid-UTF-8 payload ends the handler with an error. -/
theorem C6_witness :
    handleClient [⟨true, .data .invalidJson, 0, 0, "t"⟩,
        ⟨true, .data (.req ⟨some "ping", some 2⟩), 0, 5, "t"⟩] initStats
      = handleClient [⟨true, .data (.req ⟨some "ping", some 2⟩), 0, 5, "t"⟩] initStats ∧
    handleClient [⟨true, .data .invalidUtf8, 0, 0, "t"⟩] initStats
      = (initStats, [], some .errored) :=
  ⟨C6_bad_json_dropped_bad_utf8_fatal.1 ⟨true, .data .invalidJson, 0, 0, "t"⟩
      [⟨true, .data (.req ⟨some "ping", some 2⟩), 0, 5, "t"⟩] initStats rfl rfl,
   C6_bad_json_dropped_bad_utf8_fatal.2 ⟨true, .data .invalidUtf8, 0, 0, "t"⟩
      [] initStats rfl rfl⟩

/-- Claim C7: on a successful exchange `send_ping` returns the response's
`latency` field — falling back to the local round trip
`(end_time - start_time) * 1000` when the field is absent — and appends
exactly the returned value to the client's sample list; on every failure
path (send error, recv error, empty response, undecodable response) it
returns `None` and appends nothing, so the client's statistics contain
only successfully measured samples. -/
theorem C7_send_ping_success_and_failure (s e l : ℚ) (ls : List ℚ) :
    send_ping true (.response (some l)) s e ls = (some l, ls ++ [l]) ∧
    send_ping true (.response none) s e ls
      = (some ((e - s) * 1000), ls ++ [(e - s) * 1000]) ∧
    send_ping true .sendError s e ls = (none, ls) ∧
    send_ping true .recvError s e ls = (none, ls) ∧
    send_ping true .emptyResponse s e ls = (none, ls) ∧
    send_ping true .badResponse s e ls = (none, ls) :=
  ⟨rfl, rfl, rfl, rfl, rfl, rfl⟩

/-- Claim C8: after any sequence `L` of `record` calls on a fresh
aggregator, `total_requests` equals the number of retained samples, the
retained samples are exactly `L` in order, and every recorded sample
lies between `min_latency` and `max_latency` — including sequences with
negative samples, thanks to `min_latency` starting at `+∞` and
`max_latency` at `0`. -/
theorem C8_record_invariant (L : List ℚ) :
    (recordAll L).total_requests = (recordAll L).latencies.length ∧
    (recordAll L).latencies = L ∧
    ∀ s, s ∈ L → (recordAll L).min_latency ≤ (s : WithTop ℚ) ∧
      s ≤ (recordAll L).max_latency := by
  refine ⟨?_, ?_, ?_⟩
  · rw [recordAll, fold_total, fold_lat]
    simp [initStats]
  · rw [recordAll, fold_lat]; simp [initStats]
  · exact fold_bounds L initStats

/-- Claim C8, witness: the invariant applied to the concrete sequence
`[-3, 4]`, which contains a negative sample, at the sample `-3`. -/
theorem C8_witness :
    (recordAll [-3, 4]).min_latency ≤ ((-3 : ℚ) : WithTop ℚ) ∧
    (-3 : ℚ) ≤ (recordAll [-3, 4]).max_latency :=
  (C8_record_invariant [-3, 4]).2.2 (-3) (by decide)

/-- Claim C9: decoding is permissive — a request with no `type` field is
processed as a ping (the `request.get('type', 'ping')` default), and a
request with no `timestamp` field gets the server's current time (the
`request.get('timestamp', time.time())` default, here `tg`) instead of
being rejected; in both cases the exchange completes normally with a
pong. -/
theorem C9_permissive_decode_defaults (t r tg : ℚ) (w : String) (st : Stats) :
    handleClient [⟨true, .data (.req ⟨none, some t⟩), tg, r, w⟩] st
      = (update_stats st ((r - t) * 1000), [.pong r ((r - t) * 1000) w], none) ∧
    handleClient [⟨true, .data (.req ⟨some "ping", none⟩), tg, r, w⟩] st
      = (update_stats st ((r - tg) * 1000), [.pong r ((r - tg) * 1000) w], none) :=
  ⟨rfl, rfl⟩

/-- Claim C10: a stats query handled while no sample has been recorded
answers with `get_stats` of the initial state, which exposes the
sentinels unmodified: `total_requests = 0`, `min_latency = +∞` (the
`float('inf')` initializer, not `0`), and `max_latency = 0`. -/
theorem C10_empty_stats_exposes_sentinels (t tg r : ℚ) (w : String) :
    handleClient [⟨true, .data (.req ⟨some "stats", some t⟩), tg, r, w⟩] initStats
      = (initStats, [.statsResponse (get_stats initStats)], none) ∧
    (get_stats initStats).total_requests = 0 ∧
    (get_stats initStats).min_latency = ⊤ ∧
    (get_stats initStats).max_latency = 0 :=
  ⟨rfl, rfl, rfl, rfl⟩

end TCPLatency
